import Mathlib

/-!
Shallow embedding of the Sonarr-Disk-Balancer script (`src/main.py`) and
verification of the spec's claims about it.

Modelling conventions:
* Byte counts and gigabyte values are exact rationals (`ℚ`); the source uses
  Python floats, whose rounding is abstracted away.
* Timestamps are integer seconds (`ℤ`); `timedelta(days = cooldown_days)`
  becomes `cooldown_days * 86400` seconds.
* The JSON dictionaries persisted in `move_state.json` / `move_history.json`
  are association lists keyed by the series id (Python uses `str(series_id)`,
  `Nat.repr` is injective so we key by the id itself), with Python-dict
  insertion-order semantics: overwrite in place, append new keys at the end.
* The external Sonarr service is an oracle inside `Env`: per-series success
  flags for the three HTTP calls made by `move_series`, and a per-series,
  per-poll log oracle for `monitor_sonarr_logs` (`none` models a
  `RequestException` while fetching logs, `some b` a fetch whose records
  match (`b = true`) or do not match the completion pattern).
* A Python exception that is not caught is modelled by `Option` results:
  `none` means the call raised.
-/

set_option autoImplicit false

namespace SonarrBalancer

/-- Python's `s.rstrip('/')`: drop every trailing `'/'` character. -/
def rstripSlash (s : String) : String :=
  String.mk ((s.data.reverse.dropWhile (fun c => c = '/')).reverse)

/-- First-match lookup in an association list keyed by series id
(Python `move_history[str(series_id)]` / `str(series_id) in state`). -/
def dictGet {α : Type} (m : List (ℕ × α)) (k : ℕ) : Option α :=
  match m with
  | [] => none
  | p :: rest => if p.1 = k then some p.2 else dictGet rest k

/-- Python dict assignment `d[k] = v`: overwrite in place if the key exists,
otherwise append at the end (insertion order preserved). -/
def dictSet {α : Type} (m : List (ℕ × α)) (k : ℕ) (v : α) : List (ℕ × α) :=
  match m with
  | [] => [(k, v)]
  | p :: rest => if p.1 = k then (k, v) :: rest else p :: dictSet rest k v

/-- One entry of `move_history.json` (`update_move_history`, main.py:162-170). -/
structure MoveRecord where
  title : String
  last_moved_to : String
  timestamp : ℤ
deriving Repr, DecidableEq

/-- One row of the `series_df` DataFrame built by `get_series_info`
(main.py:88-97): id, title, path, normalized root folder, and the
total size converted to GB. -/
structure SeriesRow where
  series_id : ℕ
  title : String
  path : String
  root_folder_path : String
  total_size_gb : ℚ
deriving Repr, DecidableEq

/-- One element of the `recommendations` list built by the planners
(main.py:259-266 and 321-328). -/
structure Recommendation where
  series_id : ℕ
  title : String
  current_root : String
  recommended_root : String
  path : String
  size_gb : ℚ
deriving Repr, DecidableEq

/-- One entry of the Sonarr `/diskspace` response: a path and its free
space in bytes. -/
structure DiskSpace where
  path : String
  freeSpace : ℚ
deriving Repr, DecidableEq

/-- One entry of the Sonarr `/series` response, restricted to the fields
the script reads, with the sizes of its episode files (in bytes). -/
structure RawSeries where
  id : ℕ
  title : String
  path : String
  rootFolderPath : String
  episodeFileSizes : List ℚ
deriving Repr

/-- The two persisted stores: `move_state.json` (series id → root path)
and `move_history.json` (series id → MoveRecord). -/
structure Stores where
  moveState : List (ℕ × String)
  moveHistory : List (ℕ × MoveRecord)
deriving Repr, DecidableEq

/-- Ghost effect counters for one orchestrator invocation: writes of
`move_state.json`, writes of `move_history.json`, relocation `PUT`
requests attempted against the Sonarr API, and `/log` fetches. -/
structure Trace where
  stateWrites : ℕ
  historyWrites : ℕ
  requestsIssued : ℕ
  logFetches : ℕ
deriving Repr, DecidableEq

/-- Configuration values plus the oracle describing the external Sonarr
service's behaviour during one run. -/
structure Env where
  dry_run : Bool
  max_moves : ℕ
  timeout : ℕ
  cooldown_days : ℤ
  now : ℤ
  fetchOk : ℕ → Bool
  putOk : ℕ → Bool
  rescanOk : ℕ → Bool
  logOracle : ℕ → ℕ → Option Bool

/-- `load_state` (main.py:104-109): returns the parsed file, or the empty
dict when the file does not exist (`none`). -/
def load_state {κ α : Type} (contents : Option (List (κ × α))) : List (κ × α) :=
  contents.getD []

/-- `should_move_series` (main.py:173-185): false if the history records the
same target (anti-ping-pong), false if the last move is within the cooldown
window, true otherwise (including when the series has no history entry). -/
def should_move_series (move_history : List (ℕ × MoveRecord)) (cooldown_days now : ℤ)
    (series_id : ℕ) (new_root_path : String) : Bool :=
  match dictGet move_history series_id with
  | none => true
  | some last_move =>
    if last_move.last_moved_to = new_root_path then false
    else if now - last_move.timestamp < cooldown_days * 86400 then false
    else true

/-- `update_move_history` (main.py:162-170): overwrite the single history
entry for the series with the new target and the current time. -/
def update_move_history (history : List (ℕ × MoveRecord)) (series_id : ℕ)
    (new_root_path title : String) (now : ℤ) : List (ℕ × MoveRecord) :=
  dictSet history series_id ⟨title, new_root_path, now⟩

/-- `move_series` (main.py:116-160). Returns (success, number of relocation
`PUT` requests attempted). The initial `GET` of the series info happens even
in dry-run; dry-run then returns `True` before any `PUT`. In the real run the
`PUT` is attempted (counted) and success additionally requires the
`RescanSeries` command to be accepted; any `RequestException` yields `False`. -/
def move_series (env : Env) (series_id : ℕ) (dry_run : Bool) : Bool × ℕ :=
  if env.fetchOk series_id = false then (false, 0)
  else if dry_run then (true, 0)
  else if env.putOk series_id then
    (if env.rescanOk series_id then (true, 1) else (false, 1))
  else (false, 1)

/-- Polling loop of `monitor_sonarr_logs` (main.py:349-365). `i` is the
number of `/log` fetches performed so far, `elapsed` the wall-clock seconds
consumed by the sleeps (each iteration fetches once and, unless the pattern
matched, sleeps `poll_interval = 3` seconds; fetch errors are retried after
the same sleep). The `fuel` argument only makes the recursion structural: it
starts at `timeoutS + 1`, which exceeds the number of iterations the guard
`elapsed < timeoutS` can admit, so the fuel-exhaustion branch is never the
reason the loop stops. Returns (pattern observed, number of fetches). -/
def monitorLoop (oracle : ℕ → Option Bool) (timeoutS : ℕ) :
    ℕ → ℕ → ℕ → Bool × ℕ
  | 0, i, _ => (false, i)
  | fuel + 1, i, elapsed =>
    if elapsed < timeoutS then
      match oracle i with
      | some true => (true, i + 1)
      | _ => monitorLoop oracle timeoutS fuel (i + 1) (elapsed + 3)
    else (false, i)

/-- `monitor_sonarr_logs` (main.py:338-367): in dry-run, return `True`
immediately without fetching; otherwise poll the log oracle until the
completion pattern is observed or the timeout elapses. Returns the result
together with the number of `/log` fetches performed. -/
def monitor_sonarr_logs (dry_run : Bool) (timeoutS : ℕ) (oracle : ℕ → Option Bool) :
    Bool × ℕ :=
  if dry_run then (true, 0) else monitorLoop oracle timeoutS (timeoutS + 1) 0 0

/-- Result of `perform_moves`: final stores, effect trace, and the final
`moves_completed` counter. -/
structure PerformResult where
  stores : Stores
  trace : Trace
  moves_completed : ℕ
deriving Repr

/-- Loop body of `perform_moves` (main.py:192-215). Breaks once
`moves_completed >= max_moves`; skips recommendations rejected by
`should_move_series`; on a successful `move_series` it writes the state
file, writes the history file, increments the counter and runs the log
monitor (whose boolean result the source discards); on a failed
`move_series` nothing is recorded. -/
def performGo (env : Env) :
    List Recommendation → Stores → Trace → ℕ → PerformResult
  | [], st, tr, mc => ⟨st, tr, mc⟩
  | r :: rest, st, tr, mc =>
    if env.max_moves ≤ mc then ⟨st, tr, mc⟩
    else if should_move_series st.moveHistory env.cooldown_days env.now
        r.series_id r.recommended_root then
      let ms := move_series env r.series_id env.dry_run
      if ms.1 then
        let st' : Stores :=
          ⟨dictSet st.moveState r.series_id r.recommended_root,
           update_move_history st.moveHistory r.series_id r.recommended_root
             r.title env.now⟩
        let mon := monitor_sonarr_logs env.dry_run env.timeout
          (env.logOracle r.series_id)
        performGo env rest st'
          ⟨tr.stateWrites + 1, tr.historyWrites + 1,
           tr.requestsIssued + ms.2, tr.logFetches + mon.2⟩ (mc + 1)
      else
        performGo env rest st
          ⟨tr.stateWrites, tr.historyWrites,
           tr.requestsIssued + ms.2, tr.logFetches⟩ mc
    else performGo env rest st tr mc

/-- `perform_moves` (main.py:187-216) starting from the given store
contents, with zeroed effect counters and `moves_completed = 0`. -/
def perform_moves (env : Env) (recommendations : List Recommendation)
    (stores : Stores) : PerformResult :=
  performGo env recommendations stores ⟨0, 0, 0, 0⟩ 0

/-- Projected free space per volume (`final_free_space`): a pandas Series
indexed by volume path, kept here as an ordered association list. -/
abbrev FreeSpace := List (String × ℚ)

/-- Index labels of the free-space table. -/
def pathsOf (fs : FreeSpace) : List String := fs.map Prod.fst

/-- Total projected free space across the table's volumes. -/
def sumFree : FreeSpace → ℚ
  | [] => 0
  | p :: rest => p.2 + sumFree rest

/-- `final_free_space[key] += d` applied to every entry labelled `key`
(pandas updates all occurrences of a duplicate label). -/
def applyAdd : FreeSpace → String → ℚ → FreeSpace
  | [], _, _ => []
  | p :: rest, k, d =>
    (if p.1 = k then (p.1, p.2 + d) else p) :: applyAdd rest k d

/-- `final_free_space[key] += d` as the source performs it: pandas raises a
`KeyError` (modelled by `none`) when the label is absent from the index. -/
def seriesAdd (fs : FreeSpace) (k : String) (d : ℚ) : Option FreeSpace :=
  if k ∈ pathsOf fs then some (applyAdd fs k d) else none

/-- Accumulator for `idxmax`: keep the current best entry, replacing it only
on a strictly larger value, so the first occurrence of the maximum wins. -/
def idxmaxGo (best : String × ℚ) : FreeSpace → String × ℚ
  | [] => best
  | p :: rest => idxmaxGo (if best.2 < p.2 then p else best) rest

/-- `final_free_space.idxmax()`: label of the first entry holding the
maximum value; raises (`none`) on an empty Series. -/
def idxmax : FreeSpace → Option String
  | [] => none
  | p :: rest => some (idxmaxGo p rest).1

/-- Stable insertion of a row into a list sorted ascending by size. -/
def sortInsert (a : SeriesRow) : List SeriesRow → List SeriesRow
  | [] => [a]
  | b :: bs =>
    if a.total_size_gb ≤ b.total_size_gb then a :: b :: bs
    else b :: sortInsert a bs

/-- `series_df.sort_values(by = 'total_size_gb', ascending = True)`
(main.py:249 and 296), as a stable ascending sort. -/
def sort_by_size : List SeriesRow → List SeriesRow
  | [] => []
  | a :: rest => sortInsert a (sort_by_size rest)

/-- Simulation loop shared by `report_free_space_heuristically`
(main.py:253-266): for each row pick the volume with maximum projected free
space; if it differs from the row's current root, add the size to the source,
subtract it from the target and emit a recommendation. `none` propagates a
raised `KeyError`/`ValueError`. -/
def planGo : List SeriesRow → FreeSpace → Option (FreeSpace × List Recommendation)
  | [], fs => some (fs, [])
  | row :: rest, fs =>
    match idxmax fs with
    | none => none
    | some best_drive =>
      if row.root_folder_path = best_drive then planGo rest fs
      else
        match seriesAdd fs row.root_folder_path row.total_size_gb with
        | none => none
        | some fs1 =>
          match seriesAdd fs1 best_drive (-row.total_size_gb) with
          | none => none
          | some fs2 =>
            match planGo rest fs2 with
            | none => none
            | some (fsF, recs) =>
              some (fsF, ⟨row.series_id, row.title, row.root_folder_path,
                best_drive, row.path, row.total_size_gb⟩ :: recs)

/-- Simulation loop of `balance_free_space_heuristically` (main.py:305-330):
same step as `planGo`, but it breaks once `moves_count >= max_moves`, and it
skips series already present in the move-state file. -/
def balanceGo (state : List (ℕ × String)) (maxM : ℕ) :
    List SeriesRow → FreeSpace → ℕ → Option (FreeSpace × List Recommendation)
  | [], fs, _ => some (fs, [])
  | row :: rest, fs, mc =>
    if maxM ≤ mc then some (fs, [])
    else if (dictGet state row.series_id).isSome then
      balanceGo state maxM rest fs mc
    else
      match idxmax fs with
      | none => none
      | some best_drive =>
        if row.root_folder_path = best_drive then balanceGo state maxM rest fs mc
        else
          match seriesAdd fs row.root_folder_path row.total_size_gb with
          | none => none
          | some fs1 =>
            match seriesAdd fs1 best_drive (-row.total_size_gb) with
            | none => none
            | some fs2 =>
              match balanceGo state maxM rest fs2 (mc + 1) with
              | none => none
              | some (fsF, recs) =>
                some (fsF, ⟨row.series_id, row.title, row.root_folder_path,
                  best_drive, row.path, row.total_size_gb⟩ :: recs)

/-- Initial free-space table of `report_free_space_heuristically`
(main.py:240-245): rstrip the paths, keep only those in the allow-list
(note: the index is not lowercased here), convert bytes to GB. -/
def report_initial (valid_root_paths : List String)
    (disk_spaces : List DiskSpace) : FreeSpace :=
  ((disk_spaces.map fun d => (rstripSlash d.path, d.freeSpace)).filter
    fun p => valid_root_paths.contains p.1).map fun p => (p.1, p.2 / (1024 ^ 3))

/-- Initial free-space table of `balance_free_space_heuristically`
(main.py:290-293): rstrip the paths and convert bytes to GB — the source
applies no allow-list filter in this pass. -/
def balance_initial (disk_spaces : List DiskSpace) : FreeSpace :=
  (disk_spaces.map fun d => (rstripSlash d.path, d.freeSpace)).map
    fun p => (p.1, p.2 / (1024 ^ 3))

/-- Planning part of `report_free_space_heuristically` (main.py:237-266):
the simulated moves and final projected table, ignoring the report-file and
console rendering. -/
def report_sim (valid_root_paths : List String) (disk_spaces : List DiskSpace)
    (series : List SeriesRow) : Option (FreeSpace × List Recommendation) :=
  planGo (sort_by_size series) (report_initial valid_root_paths disk_spaces)

/-- Planning part of `balance_free_space_heuristically` (main.py:288-333). -/
def balance_sim (maxM : ℕ) (state : List (ℕ × String))
    (disk_spaces : List DiskSpace) (series : List SeriesRow) :
    Option (FreeSpace × List Recommendation) :=
  balanceGo state maxM (sort_by_size series) (balance_initial disk_spaces) 0

/-- `balance_free_space_heuristically` (main.py:288-336): plan, then hand the
recommendations to `perform_moves`. -/
def balance_free_space_heuristically (env : Env) (stores : Stores)
    (disk_spaces : List DiskSpace) (series : List SeriesRow) :
    Option PerformResult :=
  match balance_sim env.max_moves stores.moveState disk_spaces series with
  | none => none
  | some (_, recs) => some (perform_moves env recs stores)

/-- `get_series_info` (main.py:61-102). A `RequestException` anywhere in the
fetching (`none` input) is caught and yields the empty DataFrame. Rows are
kept when the normalized root folder is allow-listed and the summed episode
file size is positive; sizes are converted to GB. When the fetch succeeded
but no row qualifies, adding the `total_size_gb` column to the empty
DataFrame raises a `KeyError`, which the `except` clause does not catch
(`none` result). -/
def get_series_info (valid_root_paths : List String)
    (fetched : Option (List RawSeries)) : Option (List SeriesRow) :=
  match fetched with
  | none => some []
  | some series_list =>
    let series_data := series_list.filterMap fun s =>
      let root := (rstripSlash s.rootFolderPath).toLower
      if valid_root_paths.contains root then
        let total := s.episodeFileSizes.sum
        if 0 < total then
          some (⟨s.id, s.title, s.path, root, total / (1024 ^ 3)⟩ : SeriesRow)
        else none
      else none
    if series_data.isEmpty then none else some series_data

/-- The `__main__` run (main.py:396-412), after configuration validation and
history printing: fetch the series info, fetch the disk-space info (an error
here propagates uncaught), and when the series table is non-empty run the
reporting pass and then the balancing-and-move pass. Returns which of the
two passes ran, or `none` when the run crashed on an uncaught exception. -/
def main_run (valid_root_paths : List String)
    (seriesFetch : Option (List RawSeries))
    (diskFetch : Option (List DiskSpace))
    (env : Env) (stores : Stores) : Option (Bool × Bool) :=
  match get_series_info valid_root_paths seriesFetch with
  | none => none
  | some series_rows =>
    match diskFetch with
    | none => none
    | some disk_spaces =>
      if series_rows.isEmpty then some (false, false)
      else
        match report_sim valid_root_paths disk_spaces series_rows with
        | none => none
        | some _ =>
          match balance_free_space_heuristically env stores disk_spaces
            series_rows with
          | none => none
          | some _ => some (true, true)

/-! ## Helper lemmas about the free-space table -/

theorem pathsOf_applyAdd (k : String) (d : ℚ) :
    ∀ fs : FreeSpace, pathsOf (applyAdd fs k d) = pathsOf fs := by
  intro fs
  induction fs with
  | nil => rfl
  | cons p rest ih =>
    by_cases h : p.1 = k <;> simp [applyAdd, pathsOf, h] <;>
      simpa [pathsOf] using ih

theorem applyAdd_of_not_mem {k : String} {d : ℚ} :
    ∀ {fs : FreeSpace}, k ∉ pathsOf fs → applyAdd fs k d = fs := by
  intro fs
  induction fs with
  | nil => intro _; rfl
  | cons p rest ih =>
    intro h
    simp only [pathsOf, List.map_cons, List.mem_cons, not_or] at h
    have hne : ¬ p.1 = k := fun he => h.1 (he.symm)
    simp only [applyAdd, if_neg hne]
    rw [ih (by simpa [pathsOf] using h.2)]

theorem sumFree_applyAdd {d : ℚ} :
    ∀ {fs : FreeSpace} {k : String}, (pathsOf fs).Nodup → k ∈ pathsOf fs →
      sumFree (applyAdd fs k d) = sumFree fs + d := by
  intro fs
  induction fs with
  | nil => intro k _ hmem; simp [pathsOf] at hmem
  | cons p rest ih =>
    intro k hnd hmem
    simp only [pathsOf, List.map_cons, List.nodup_cons] at hnd
    rcases (by simpa [pathsOf] using hmem : k = p.1 ∨ k ∈ pathsOf rest) with h | h
    · subst h
      rw [show applyAdd (p :: rest) p.1 d = (p.1, p.2 + d) :: applyAdd rest p.1 d from
        by simp [applyAdd]]
      rw [applyAdd_of_not_mem (by simpa [pathsOf] using hnd.1)]
      simp [sumFree]; ring
    · have hne : ¬ p.1 = k := fun he => hnd.1 (he ▸ h)
      simp only [applyAdd, if_neg hne, sumFree]
      rw [ih hnd.2 h]; ring

theorem pathsOf_map_div (l : List (String × ℚ)) :
    pathsOf (l.map fun p => (p.1, p.2 / (1024 ^ 3))) = pathsOf l := by
  induction l with
  | nil => rfl
  | cons p rest ih => simp_all [pathsOf]

theorem seriesAdd_sum {fs fs' : FreeSpace} {k : String} {d : ℚ}
    (hnd : (pathsOf fs).Nodup) (h : seriesAdd fs k d = some fs') :
    sumFree fs' = sumFree fs + d ∧ pathsOf fs' = pathsOf fs := by
  unfold seriesAdd at h
  split at h
  · injection h with h'
    subst h'
    exact ⟨sumFree_applyAdd hnd (by assumption), pathsOf_applyAdd k d fs⟩
  · cases h

/-- Conservation through the reporting-pass simulation loop: a successful run
leaves the total projected free space and the index labels unchanged. -/
theorem planGo_conserve :
    ∀ (rows : List SeriesRow) (fs fs' : FreeSpace) (recs : List Recommendation),
      (pathsOf fs).Nodup → planGo rows fs = some (fs', recs) →
      sumFree fs' = sumFree fs ∧ pathsOf fs' = pathsOf fs := by
  intro rows
  induction rows with
  | nil =>
    intro fs fs' recs _ h
    simp only [planGo, Option.some.injEq, Prod.mk.injEq] at h
    rw [← h.1]
    exact ⟨rfl, rfl⟩
  | cons row rest ih =>
    intro fs fs' recs hnd h
    cases hix : idxmax fs with
    | none => simp [planGo, hix] at h
    | some best =>
      by_cases hroot : row.root_folder_path = best
      · simp only [planGo, hix, if_pos hroot] at h
        exact ih fs fs' recs hnd h
      · cases h1 : seriesAdd fs row.root_folder_path row.total_size_gb with
        | none => simp [planGo, hix, if_neg hroot, h1] at h
        | some fs1 =>
          cases h2 : seriesAdd fs1 best (-row.total_size_gb) with
          | none => simp [planGo, hix, if_neg hroot, h1, h2] at h
          | some fs2 =>
            cases h3 : planGo rest fs2 with
            | none => simp [planGo, hix, if_neg hroot, h1, h2, h3] at h
            | some pr =>
              obtain ⟨fsF, recsF⟩ := pr
              simp only [planGo, hix, if_neg hroot, h1, h2, h3,
                Option.some.injEq, Prod.mk.injEq] at h
              have s1 := seriesAdd_sum hnd h1
              have s2 := seriesAdd_sum (by rw [s1.2]; exact hnd) h2
              have s3 := ih fs2 fsF recsF (by rw [s2.2, s1.2]; exact hnd) h3
              rw [← h.1]
              constructor
              · rw [s3.1, s2.1, s1.1]; ring
              · rw [s3.2, s2.2, s1.2]

/-- Conservation through the balancing-pass simulation loop. -/
theorem balanceGo_conserve (state : List (ℕ × String)) (maxM : ℕ) :
    ∀ (rows : List SeriesRow) (fs fs' : FreeSpace) (recs : List Recommendation)
      (mc : ℕ), (pathsOf fs).Nodup →
      balanceGo state maxM rows fs mc = some (fs', recs) →
      sumFree fs' = sumFree fs ∧ pathsOf fs' = pathsOf fs := by
  intro rows
  induction rows with
  | nil =>
    intro fs fs' recs mc _ h
    simp only [balanceGo, Option.some.injEq, Prod.mk.injEq] at h
    rw [← h.1]
    exact ⟨rfl, rfl⟩
  | cons row rest ih =>
    intro fs fs' recs mc hnd h
    by_cases hcap : maxM ≤ mc
    · simp only [balanceGo, if_pos hcap, Option.some.injEq, Prod.mk.injEq] at h
      rw [← h.1]
      exact ⟨rfl, rfl⟩
    · by_cases hst : (dictGet state row.series_id).isSome
      · simp only [balanceGo, if_neg hcap, if_pos hst] at h
        exact ih fs fs' recs mc hnd h
      · cases hix : idxmax fs with
        | none => simp [balanceGo, if_neg hcap, hst, hix] at h
        | some best =>
          by_cases hroot : row.root_folder_path = best
          · simp only [balanceGo, if_neg hcap, if_neg hst, hix, if_pos hroot] at h
            exact ih fs fs' recs mc hnd h
          · cases h1 : seriesAdd fs row.root_folder_path row.total_size_gb with
            | none => simp [balanceGo, if_neg hcap, hst, hix, hroot, h1] at h
            | some fs1 =>
              cases h2 : seriesAdd fs1 best (-row.total_size_gb) with
              | none => simp [balanceGo, if_neg hcap, hst, hix, hroot, h1, h2] at h
              | some fs2 =>
                cases h3 : balanceGo state maxM rest fs2 (mc + 1) with
                | none =>
                  simp [balanceGo, if_neg hcap, hst, hix, hroot, h1, h2, h3] at h
                | some pr =>
                  obtain ⟨fsF, recsF⟩ := pr
                  simp only [balanceGo, if_neg hcap, if_neg hst, hix,
                    if_neg hroot, h1, h2, h3, Option.some.injEq,
                    Prod.mk.injEq] at h
                  have s1 := seriesAdd_sum hnd h1
                  have s2 := seriesAdd_sum (by rw [s1.2]; exact hnd) h2
                  have s3 := ih fs2 fsF recsF (mc + 1)
                    (by rw [s2.2, s1.2]; exact hnd) h3
                  rw [← h.1]
                  constructor
                  · rw [s3.1, s2.1, s1.1]; ring
                  · rw [s3.2, s2.2, s1.2]

/-- The balancing-pass loop emits at most `maxM - mc` further proposals. -/
theorem balanceGo_length (state : List (ℕ × String)) (maxM : ℕ) :
    ∀ (rows : List SeriesRow) (fs fs' : FreeSpace) (recs : List Recommendation)
      (mc : ℕ), balanceGo state maxM rows fs mc = some (fs', recs) →
      recs.length ≤ maxM - mc := by
  intro rows
  induction rows with
  | nil =>
    intro fs fs' recs mc h
    simp only [balanceGo, Option.some.injEq, Prod.mk.injEq] at h
    rw [← h.2]
    simp
  | cons row rest ih =>
    intro fs fs' recs mc h
    by_cases hcap : maxM ≤ mc
    · simp only [balanceGo, if_pos hcap, Option.some.injEq, Prod.mk.injEq] at h
      rw [← h.2]
      simp
    · by_cases hst : (dictGet state row.series_id).isSome
      · simp only [balanceGo, if_neg hcap, if_pos hst] at h
        exact ih fs fs' recs mc h
      · cases hix : idxmax fs with
        | none => simp [balanceGo, if_neg hcap, hst, hix] at h
        | some best =>
          by_cases hroot : row.root_folder_path = best
          · simp only [balanceGo, if_neg hcap, if_neg hst, hix, if_pos hroot] at h
            exact ih fs fs' recs mc h
          · cases h1 : seriesAdd fs row.root_folder_path row.total_size_gb with
            | none => simp [balanceGo, if_neg hcap, hst, hix, hroot, h1] at h
            | some fs1 =>
              cases h2 : seriesAdd fs1 best (-row.total_size_gb) with
              | none => simp [balanceGo, if_neg hcap, hst, hix, hroot, h1, h2] at h
              | some fs2 =>
                cases h3 : balanceGo state maxM rest fs2 (mc + 1) with
                | none =>
                  simp [balanceGo, if_neg hcap, hst, hix, hroot, h1, h2, h3] at h
                | some pr =>
                  obtain ⟨fsF, recsF⟩ := pr
                  simp only [balanceGo, if_neg hcap, if_neg hst, hix,
                    if_neg hroot, h1, h2, h3, Option.some.injEq,
                    Prod.mk.injEq] at h
                  have hlen := ih fs2 fsF recsF (mc + 1) h3
                  rw [← h.2]
                  simp only [List.length_cons]
                  omega

/-! ## Helper lemmas about the orchestrator loop -/

/-- `moves_completed` never passes `max_moves`: it is incremented only under
the `moves_completed < max_moves` guard. -/
theorem performGo_completed_le (env : Env) :
    ∀ (recs : List Recommendation) (st : Stores) (tr : Trace) (mc : ℕ),
      mc ≤ env.max_moves →
      (performGo env recs st tr mc).moves_completed ≤ env.max_moves := by
  intro recs
  induction recs with
  | nil => intro st tr mc hmc; exact hmc
  | cons r rest ih =>
    intro st tr mc hmc
    by_cases hcap : env.max_moves ≤ mc
    · simp only [performGo, if_pos hcap]
      exact hmc
    · by_cases helig : should_move_series st.moveHistory env.cooldown_days
        env.now r.series_id r.recommended_root
      · by_cases hsucc : (move_series env r.series_id env.dry_run).1
        · simp only [performGo, if_neg hcap, if_pos helig, if_pos hsucc]
          exact ih _ _ _ (by omega)
        · simp only [performGo, if_neg hcap, if_pos helig, if_neg hsucc]
          exact ih _ _ _ hmc
      · simp only [performGo, if_neg hcap, if_neg helig]
        exact ih _ _ _ hmc

/-- When every Sonarr call succeeds, the number of relocation requests the
loop adds to the trace equals the number of completed moves it adds. -/
theorem performGo_requests (env : Env)
    (hall : ∀ s, env.fetchOk s = true ∧ env.putOk s = true ∧ env.rescanOk s = true) :
    ∀ (recs : List Recommendation) (st : Stores) (tr : Trace) (mc : ℕ),
      (performGo env recs st tr mc).trace.requestsIssued + mc ≤
        tr.requestsIssued + (performGo env recs st tr mc).moves_completed := by
  intro recs
  induction recs with
  | nil => intro st tr mc; simp [performGo]
  | cons r rest ih =>
    intro st tr mc
    by_cases hcap : env.max_moves ≤ mc
    · simp [performGo, if_pos hcap]
    · by_cases helig : should_move_series st.moveHistory env.cooldown_days
        env.now r.series_id r.recommended_root
      · have hms : (move_series env r.series_id env.dry_run).1 = true ∧
            (move_series env r.series_id env.dry_run).2 ≤ 1 := by
          obtain ⟨hf, hp, hr⟩ := hall r.series_id
          cases hdry : env.dry_run <;> simp [move_series, hf, hp, hr, hdry]
        simp only [performGo, if_neg hcap, if_pos helig, if_pos hms.1]
        have := ih
          (⟨dictSet st.moveState r.series_id r.recommended_root,
            update_move_history st.moveHistory r.series_id r.recommended_root
              r.title env.now⟩ : Stores)
          (⟨tr.stateWrites + 1, tr.historyWrites + 1,
            tr.requestsIssued + (move_series env r.series_id env.dry_run).2,
            tr.logFetches + (monitor_sonarr_logs env.dry_run env.timeout
              (env.logOracle r.series_id)).2⟩ : Trace)
          (mc + 1)
        simp only at this
        omega
      · simp only [performGo, if_neg hcap, if_neg helig]
        exact ih _ _ _

/-! ## Concrete inputs used by the per-claim theorems -/

/-- Dry-run environment: every Sonarr call would succeed. -/
def envC1 : Env :=
  ⟨true, 5, 0, 7, 0, fun _ => true, fun _ => true, fun _ => true,
    fun _ _ => some true⟩

/-- One recommendation: move series 1 from /d1 to /d2. -/
def recC1 : Recommendation := ⟨1, "A", "/d1", "/d2", "/d1/A", 1⟩

/-- Disk-space response of the C2 scenario: an allow-listed volume with
10 GB free and a volume `/evil` outside the allow-list with 1000 GB free. -/
def disksC2 : List DiskSpace :=
  [⟨"/d1", 10 * 1073741824⟩, ⟨"/evil", 1000 * 1073741824⟩]

/-- One allow-listed series of 1 GB currently on /d1. -/
def seriesC2 : List SeriesRow := [⟨1, "A", "/d1/A", "/d1", 1⟩]

/-- Environment of the C5 counterexample: real run, `max_moves = 1`, the
relocation request for series 1 is rejected while the one for series 2
succeeds. -/
def envC5 : Env :=
  ⟨false, 1, 0, 7, 0, fun _ => true, fun s => s == 2, fun _ => true,
    fun _ _ => some true⟩

/-- Two recommendations, for series 1 and series 2. -/
def recsC5 : List Recommendation :=
  [⟨1, "A", "/d1", "/d2", "/d1/A", 1⟩, ⟨2, "B", "/d1", "/d2", "/d1/B", 1⟩]

/-- Environment of the C5 witness: every issuance succeeds, `max_moves = 1`. -/
def envC5w : Env :=
  ⟨false, 1, 0, 7, 0, fun _ => true, fun _ => true, fun _ => true,
    fun _ _ => some true⟩

/-- Disk-space response of the C6 scenario: /d1 with 100 GB free, /d2 with
10 GB free. -/
def disksC6 : List DiskSpace :=
  [⟨"/d1", 100 * 1073741824⟩, ⟨"/d2", 10 * 1073741824⟩]

/-- Two series on /d2 (1 GB and 2 GB): both would benefit from moving. -/
def seriesC6 : List SeriesRow :=
  [⟨1, "A", "/d2/A", "/d2", 1⟩, ⟨2, "B", "/d2/B", "/d2", 2⟩]

/-- Disk-space response of the C4 witness: 2 GB free on /d1, 0 on /d2. -/
def disksC4 : List DiskSpace := [⟨"/d1", 2147483648⟩, ⟨"/d2", 0⟩]

/-- One series of 1 GB on /d2. -/
def seriesC4 : List SeriesRow := [⟨1, "A", "/d2/A", "/d2", 1⟩]

/-- A well-formed series-inventory entry: 1 GB series on allow-listed /d1. -/
def rawC7 : RawSeries := ⟨1, "A", "/d1/A", "/d1", [1073741824]⟩

/-- Real-run environment for the C7 counterexample. -/
def envC7 : Env :=
  ⟨false, 1, 0, 7, 0, fun _ => true, fun _ => true, fun _ => true,
    fun _ _ => some true⟩

/-- Real-run environment with a monitoring timeout of 0 seconds. -/
def envC9 : Env :=
  ⟨false, 1, 0, 7, 0, fun _ => true, fun _ => true, fun _ => true,
    fun _ _ => some true⟩

/-- One recommendation for the C9 witness. -/
def recC9 : Recommendation := ⟨1, "A", "/d1", "/d2", "/d1/A", 1⟩

/-! ## The claims -/

/-- C1. The claim says that in dry-run mode no store mutation occurs and no
relocation request is sent. The code contradicts the first half: in dry-run,
`move_series` returns `True` before the `PUT` (so indeed no relocation
request is issued), but `perform_moves` then treats the move as successful
and writes both `move_state.json` and `move_history.json`. Evaluated on one
dry-run recommendation with empty stores: zero relocation requests, yet one
state-file write, one history-file write, and both stores end up mutated. -/
theorem dry_run_writes_stores :
    (perform_moves envC1 [recC1] ⟨[], []⟩).trace.requestsIssued = 0 ∧
    (perform_moves envC1 [recC1] ⟨[], []⟩).trace.stateWrites = 1 ∧
    (perform_moves envC1 [recC1] ⟨[], []⟩).trace.historyWrites = 1 ∧
    (perform_moves envC1 [recC1] ⟨[], []⟩).stores.moveState = [(1, "/d2")] ∧
    (perform_moves envC1 [recC1] ⟨[], []⟩).stores.moveHistory =
      [(1, ⟨"A", "/d2", 0⟩)] :=
  ⟨rfl, rfl, rfl, rfl, rfl⟩

/-- C2. The claim says non-allow-listed volumes never participate in either
pass. The balancing pass (`balance_free_space_heuristically`) applies no
allow-list filter: with allow-list [/d1, /d2], the non-allow-listed volume
/evil both appears in the balancing pass's projected free-space table and is
chosen as the move target, while the reporting pass on the same input
correctly filters it out and proposes nothing. -/
theorem balance_targets_non_allowlisted :
    (balance_sim 5 [] disksC2 seriesC2).map
        (fun r => r.2.map fun x => x.recommended_root) = some ["/evil"] ∧
    pathsOf (balance_initial disksC2) = ["/d1", "/evil"] ∧
    (["/d1", "/d2"] : List String).contains "/evil" = false ∧
    (report_sim ["/d1", "/d2"] disksC2 seriesC2).map (fun r => r.2.length) =
      some 0 := by
  refine ⟨by decide!, by decide!, by decide, by decide!⟩

/-- C3 counterexample. The claim says `should_move_series(X, V)` returns
true at or after `T + cooldown` when the history records X as moved to V at
T. With history entry (series 1 → /d2 at T = 0), cooldown of 1 day, and
`now = 86400` (exactly `T + cooldown`), the source still returns false,
because the anti-ping-pong branch fires first for the recorded target. -/
theorem cooldown_same_target_counterexample :
    (0 : ℤ) + 1 * 86400 ≤ 86400 ∧
    should_move_series [(1, ⟨"A", "/d2", 0⟩)] 1 86400 1 "/d2" = false :=
  ⟨by norm_num, rfl⟩

/-- C3 amended. For a proposed target that differs from the recorded
last-moved-to volume, `should_move_series` returns false for any `now` in
`[T, T + cooldown)` and true at or after `T + cooldown` (cooldown measured
as `cooldown_days * 86400` seconds). -/
theorem cooldown_distinct_target (move_history : List (ℕ × MoveRecord))
    (cooldown_days now : ℤ) (series_id : ℕ) (new_root_path : String)
    (last_move : MoveRecord)
    (hget : dictGet move_history series_id = some last_move)
    (hne : last_move.last_moved_to ≠ new_root_path) :
    (last_move.timestamp ≤ now →
      now < last_move.timestamp + cooldown_days * 86400 →
      should_move_series move_history cooldown_days now series_id
        new_root_path = false) ∧
    (last_move.timestamp + cooldown_days * 86400 ≤ now →
      should_move_series move_history cooldown_days now series_id
        new_root_path = true) := by
  unfold should_move_series
  simp only [hget]
  rw [if_neg hne]
  constructor
  · intro _ h2
    rw [if_pos (by omega : now - last_move.timestamp < cooldown_days * 86400)]
  · intro h
    rw [if_neg (by omega : ¬ now - last_move.timestamp < cooldown_days * 86400)]

/-- C3 witness: history entry (series 1 → /d2 at T = 0), cooldown 2 days,
proposed target /d3. Within the window (`now = 86400`) the answer is false;
at the window's end (`now = 172800`) it is true. -/
theorem cooldown_distinct_target_witness :
    should_move_series [(1, ⟨"A", "/d2", 0⟩)] 2 86400 1 "/d3" = false ∧
    should_move_series [(1, ⟨"A", "/d2", 0⟩)] 2 172800 1 "/d3" = true :=
  ⟨(cooldown_distinct_target [(1, ⟨"A", "/d2", 0⟩)] 2 86400 1 "/d3"
      ⟨"A", "/d2", 0⟩ rfl (by decide)).1 (by decide) (by decide),
    (cooldown_distinct_target [(1, ⟨"A", "/d2", 0⟩)] 2 172800 1 "/d3"
      ⟨"A", "/d2", 0⟩ rfl (by decide)).2 (by decide)⟩

/-- C4. Conservation: whenever a planning simulation completes without
raising (it raises, via pandas `KeyError`/`ValueError`, when a series' root
is absent from the projected table or the table is empty), the sum of
projected free space across the participating volumes afterwards equals the
sum before — each emitted proposal adds the moved size to the source volume
and subtracts it from the target. Stated for both the balancing pass and the
reporting pass, assuming the service reports each volume path once. -/
theorem planner_conservation (valid_root_paths : List String)
    (disk_spaces : List DiskSpace) (series : List SeriesRow) (maxM : ℕ)
    (state : List (ℕ × String))
    (hnd : (pathsOf (balance_initial disk_spaces)).Nodup) :
    (∀ fs' recs, balance_sim maxM state disk_spaces series = some (fs', recs) →
      sumFree fs' = sumFree (balance_initial disk_spaces)) ∧
    (∀ fs' recs, report_sim valid_root_paths disk_spaces series =
        some (fs', recs) →
      sumFree fs' = sumFree (report_initial valid_root_paths disk_spaces)) := by
  constructor
  · intro fs' recs h
    exact (balanceGo_conserve state maxM (sort_by_size series) _ fs' recs 0
      hnd h).1
  · intro fs' recs h
    have hsub : (pathsOf (report_initial valid_root_paths disk_spaces)).Sublist
        (pathsOf (balance_initial disk_spaces)) := by
      unfold report_initial balance_initial
      rw [pathsOf_map_div, pathsOf_map_div]
      exact List.Sublist.map _ (List.filter_sublist _)
    exact (planGo_conserve (sort_by_size series) _ fs' recs
      (hsub.nodup hnd) h).1

/-- C4 witness: two volumes (2 GB and 0 GB free), one 1 GB series on the
emptier volume. The balancing simulation succeeds and the total projected
free space (2 GB) is unchanged. -/
theorem planner_conservation_witness :
    sumFree [("/d1", 1), ("/d2", 1)] = sumFree (balance_initial disksC4) :=
  (planner_conservation ["/d1", "/d2"] disksC4 seriesC4 5 [] (by decide)).1
    [("/d1", 1), ("/d2", 1)] [⟨1, "A", "/d2", "/d1", "/d2/A", 1⟩] (by decide!)

/-- C5 counterexample. The claim says at most `maxMoves` relocation requests
are issued, with failed issuances counting toward the cap. With
`max_moves = 1` and two recommendations whose first relocation request is
rejected and whose second succeeds, the orchestrator issues 2 relocation
requests — the failed issuance did not count against the cap. -/
theorem cap_failed_issuance_counterexample :
    (perform_moves envC5 recsC5 ⟨[], []⟩).trace.requestsIssued = 2 ∧
    envC5.max_moves = 1 ∧
    (perform_moves envC5 recsC5 ⟨[], []⟩).moves_completed = 1 :=
  ⟨rfl, rfl, rfl⟩

/-- C5 amended. The orchestrator records at most `max_moves` completed
moves per invocation; only successful issuances (which includes moves that
later time out in monitoring) count toward the cap. Consequently, when every
issuance succeeds, at most `max_moves` relocation requests are issued — but
failed issuances do not count, so the total number of requests can exceed
the cap when failures occur. -/
theorem cap_completed_moves (env : Env) (recs : List Recommendation) :
    (perform_moves env recs ⟨[], []⟩).moves_completed ≤ env.max_moves ∧
    ((∀ s, env.fetchOk s = true ∧ env.putOk s = true ∧ env.rescanOk s = true) →
      (perform_moves env recs ⟨[], []⟩).trace.requestsIssued ≤
        env.max_moves) := by
  constructor
  · exact performGo_completed_le env recs _ _ 0 (Nat.zero_le _)
  · intro hall
    have h1 := performGo_requests env hall recs ⟨[], []⟩ ⟨0, 0, 0, 0⟩ 0
    have h2 := performGo_completed_le env recs ⟨[], []⟩ ⟨0, 0, 0, 0⟩ 0
      (Nat.zero_le _)
    unfold perform_moves
    simp only at h1
    omega

/-- C5 witness: with `max_moves = 1`, two recommendations, and every Sonarr
call succeeding, at most one relocation request is issued. -/
theorem cap_completed_moves_witness :
    (perform_moves envC5w recsC5 ⟨[], []⟩).trace.requestsIssued ≤
      envC5w.max_moves :=
  (cap_completed_moves envC5w recsC5).2 (fun _ => ⟨rfl, rfl, rfl⟩)

/-- C6 counterexample. The claim says the planner does not bound the number
of proposals. On two beneficial moves with `max_moves = 1`, the balancing
planner emits only 1 proposal (its loop breaks at `max_moves`), while the
reporting planner on the same input emits 2. -/
theorem balance_bounds_proposals_counterexample :
    (balance_sim 1 [] disksC6 seriesC6).map (fun r => r.2.length) = some 1 ∧
    (report_sim ["/d1", "/d2"] disksC6 seriesC6).map (fun r => r.2.length) =
      some 2 :=
  ⟨by decide!, by decide!⟩

/-- C6 amended. The reporting planner is unbounded, but the balancing
planner additionally bounds its own output: a successful balancing
simulation never emits more than `max_moves` proposals. -/
theorem balance_proposals_bounded (maxM : ℕ) (state : List (ℕ × String))
    (disk_spaces : List DiskSpace) (series : List SeriesRow)
    (fs' : FreeSpace) (recs : List Recommendation)
    (h : balance_sim maxM state disk_spaces series = some (fs', recs)) :
    recs.length ≤ maxM := by
  have := balanceGo_length state maxM (sort_by_size series) _ fs' recs 0 h
  omega

/-- C6 witness: the bounded balancing run of the counterexample scenario
(2 beneficial moves, `max_moves = 1`) emits at most 1 proposal. -/
theorem balance_proposals_bounded_witness :
    ([(⟨1, "A", "/d2", "/d1", "/d2/A", 1⟩ : Recommendation)]).length ≤ 1 :=
  balance_proposals_bounded 1 [] disksC6 seriesC6 [("/d1", 99), ("/d2", 11)]
    [⟨1, "A", "/d2", "/d1", "/d2/A", 1⟩] (by decide!)

/-- C7 counterexample. The claim says a disk-space fetch failure is
recoverable (the run skips both passes rather than crashing). With a valid
series inventory and a failing `/diskspace` fetch, the run crashes: the
exception from `get_free_space_via_api` is raised through `__main__`
uncaught. -/
theorem disk_fetch_error_crashes :
    main_run ["/d1"] (some [rawC7]) none envC7 ⟨[], []⟩ = none := by
  decide!

/-- C7 amended. An inventory fetch failure is recoverable as the claim says:
`get_series_info` catches it and returns an empty table, and the run then
skips both reporting and balancing. A disk-space fetch failure, however, is
not caught and aborts the run. -/
theorem inventory_fetch_error_skips (valid_root_paths : List String)
    (diskData : List DiskSpace) (env : Env) (stores : Stores) :
    main_run valid_root_paths none (some diskData) env stores =
      some (false, false) :=
  rfl

/-- C8. Anti-ping-pong: whenever the history records the proposed target as
the series' last-moved-to volume, `should_move_series` returns false, for
every cooldown configuration and every current time. -/
theorem anti_ping_pong (move_history : List (ℕ × MoveRecord))
    (cooldown_days now : ℤ) (series_id : ℕ) (new_root_path : String)
    (last_move : MoveRecord)
    (hget : dictGet move_history series_id = some last_move)
    (htarget : last_move.last_moved_to = new_root_path) :
    should_move_series move_history cooldown_days now series_id
      new_root_path = false := by
  unfold should_move_series
  simp only [hget]
  rw [if_pos htarget]

/-- C8 witness: series 1 was last moved to /d2; proposing /d2 again is
refused even 999999999 seconds later. -/
theorem anti_ping_pong_witness :
    should_move_series [(1, ⟨"A", "/d2", 0⟩)] 7 999999999 1 "/d2" = false :=
  anti_ping_pong [(1, ⟨"A", "/d2", 0⟩)] 7 999999999 1 "/d2" ⟨"A", "/d2", 0⟩
    rfl rfl

/-- C9. With a monitoring timeout of 0 seconds: (a) `monitor_sonarr_logs`
returns false immediately, performing zero log fetches (and hence zero
poll-interval sleeps), for every log oracle; (b) a move whose issuance
succeeded is still recorded in both the move-state and move-history stores
— `perform_moves` persists them before monitoring and ignores the monitor's
result. -/
theorem timeout_zero_monitor_and_record :
    (∀ oracle : ℕ → Option Bool,
      monitor_sonarr_logs false 0 oracle = (false, 0)) ∧
    (∀ (env : Env) (r : Recommendation),
      env.dry_run = false → env.timeout = 0 →
      env.fetchOk r.series_id = true → env.putOk r.series_id = true →
      env.rescanOk r.series_id = true → 0 < env.max_moves →
      dictGet (perform_moves env [r] ⟨[], []⟩).stores.moveState r.series_id =
        some r.recommended_root ∧
      dictGet (perform_moves env [r] ⟨[], []⟩).stores.moveHistory r.series_id =
        some ⟨r.title, r.recommended_root, env.now⟩ ∧
      (perform_moves env [r] ⟨[], []⟩).trace.logFetches = 0) := by
  constructor
  · intro oracle; rfl
  · intro env r hdry htime hf hp hr hmax
    have hms : move_series env r.series_id env.dry_run = (true, 1) := by
      simp [move_series, hf, hp, hr, hdry]
    have hmon : monitor_sonarr_logs env.dry_run env.timeout
        (env.logOracle r.series_id) = (false, 0) := by
      rw [hdry, htime]; rfl
    simp [perform_moves, performGo, Nat.not_le.mpr hmax, should_move_series,
      dictGet, hms, hmon, update_move_history, dictSet]

/-- C9 witness: timeout 0, one recommendation, every call succeeding — the
move lands in both stores and no log fetch happens. -/
theorem timeout_zero_witness :
    dictGet (perform_moves envC9 [recC9] ⟨[], []⟩).stores.moveState 1 =
      some "/d2" ∧
    dictGet (perform_moves envC9 [recC9] ⟨[], []⟩).stores.moveHistory 1 =
      some ⟨"A", "/d2", 0⟩ ∧
    (perform_moves envC9 [recC9] ⟨[], []⟩).trace.logFetches = 0 :=
  timeout_zero_monitor_and_record.2 envC9 recC9 rfl rfl rfl rfl rfl
    (by decide)

/-- C10. A series with no entry in the move-history store is always eligible:
on a first run, when the history file does not exist and `load_state` yields
the empty mapping, and more generally whenever the lookup misses,
`should_move_series` returns true for every target volume, cooldown
configuration and current time. -/
theorem no_history_allows_move :
    (∀ (cooldown_days now : ℤ) (series_id : ℕ) (new_root_path : String),
      should_move_series (load_state none) cooldown_days now series_id
        new_root_path = true) ∧
    (∀ (move_history : List (ℕ × MoveRecord)) (cooldown_days now : ℤ)
      (series_id : ℕ) (new_root_path : String),
      dictGet move_history series_id = none →
      should_move_series move_history cooldown_days now series_id
        new_root_path = true) := by
  constructor
  · intro _ _ _ _; rfl
  · intro mh cd now sid root h
    unfold should_move_series
    rw [h]

/-- C10 witness: a history holding only series 2 does not block series 1. -/
theorem no_history_allows_move_witness :
    should_move_series [(2, ⟨"B", "/d3", 0⟩)] 7 0 1 "/d9" = true :=
  no_history_allows_move.2 [(2, ⟨"B", "/d3", 0⟩)] 7 0 1 "/d9" rfl

end SonarrBalancer
